import Mathlib

/-!
Formal model of the SMART Hopper 3 serial client (`smarthoper.py`).

The development shallowly embeds the program's pure core and its
effectful control flow: the CRC-16 routine `calculate_crc`, the SSP
packet builder `create_ssp_packet`, the link-parameter discovery search
`test_serial_port` (over an abstract serial transport), the command
sequencer of `main`, and `main`'s exit-status logic.

Machine integers are modelled as `Nat` (Python integers are unbounded;
overflow never occurs in this program, and the `bytes()` range check is
modelled explicitly).  Serial I/O is modelled by transport oracles that
return, per probe, either a fault (a raised exception) or the bytes the
64-byte timed read delivered (possibly none).
-/

namespace SmartHoper

/-- Protocol command opcode SYNC (0x11). -/
def CMD_SYNC : Nat := 0x11

/-- Protocol command opcode SETUP_REQUEST (0x05). -/
def CMD_SETUP_REQUEST : Nat := 0x05

/-- Protocol command opcode ENABLE (0x0A). -/
def CMD_ENABLE : Nat := 0x0A

/-- Protocol command opcode DISABLE (0x09). -/
def CMD_DISABLE : Nat := 0x09

/-- Protocol command opcode POLL (0x07). -/
def CMD_POLL : Nat := 0x07

/-- Protocol command opcode RESET (0x01). -/
def CMD_RESET : Nat := 0x01

/-- One iteration of the inner 8-round loop of `calculate_crc`:
`if crc & 0x0001: crc >>= 1; crc ^= 0x8408 else: crc >>= 1`
(Python truthiness: the branch is taken when `crc & 1` is nonzero). -/
def crc_round (crc : Nat) : Nat :=
  if crc &&& 0x0001 ≠ 0 then (crc >>> 1) ^^^ 0x8408 else crc >>> 1

/-- `calculate_crc(data)`: register starts at 0xFFFF; for each byte,
`crc ^= b` then the 8-round inner loop (`for _ in range(8)`). -/
def calculate_crc (data : List Nat) : Nat :=
  data.foldl (fun crc b => (List.range 8).foldl (fun c _ => crc_round c) (crc ^^^ b)) 0xFFFF

/-- `create_ssp_packet(command, sequence, data)`: builds
`[0x7F, sequence, len(data)+1, command] + data`, appends the CRC of that
prefix as `[crc & 0xFF, (crc >> 8) & 0xFF]`, and converts to `bytes`.
The `bytes()` conversion raises `ValueError` when any entry is outside
0..255; that failure is modelled as `none`. -/
def create_ssp_packet (command sequence : Nat) (data : List Nat) : Option (List Nat) :=
  let packet := [0x7F, sequence, data.length + 1, command] ++ data
  let crc := calculate_crc packet
  let full := packet ++ [crc &&& 0xFF, (crc >>> 8) &&& 0xFF]
  if full.all (fun b => decide (b < 256)) then some full else none

/-- One round of the CRC-16 reference computation as the spec words it:
shift the register right one bit, XORing with 0x8408 exactly when the
low bit was set before the shift. -/
def crc16_ref_round (reg : Nat) : Nat :=
  if reg % 2 = 1 then (reg / 2) ^^^ 0x8408 else reg / 2

/-- Iterate the reference CRC round a given number of times. -/
def crc16_ref_iter : Nat → Nat → Nat
  | 0, reg => reg
  | n + 1, reg => crc16_ref_iter n (crc16_ref_round reg)

/-- Process the input bytes of the reference CRC computation: XOR each
byte into the (low byte of the) register, then run 8 reference rounds. -/
def crc16_ref_from : List Nat → Nat → Nat
  | [], reg => reg
  | b :: rest, reg => crc16_ref_from rest (crc16_ref_iter 8 (reg ^^^ b))

/-- The CRC-16 reference computation of the spec: register initialized
to 0xFFFF, each input byte processed by `crc16_ref_from`, final register
returned with no final XOR. -/
def checksum_reference (data : List Nat) : Nat := crc16_ref_from data 0xFFFF

theorem crc_round_eq_ref (c : Nat) : crc_round c = crc16_ref_round c := by
  unfold crc_round crc16_ref_round
  rw [Nat.and_one_is_mod, Nat.shiftRight_eq_div_pow, Nat.pow_one]
  rcases Nat.mod_two_eq_zero_or_one c with h | h <;> simp [h]

theorem crc_inner_eq_ref (x : Nat) :
    (List.range 8).foldl (fun c _ => crc_round c) x = crc16_ref_iter 8 x := by
  have hr : List.range 8 = [0, 1, 2, 3, 4, 5, 6, 7] := by decide
  rw [hr]
  simp only [List.foldl, crc16_ref_iter, crc_round_eq_ref]

theorem crc_foldl_eq_ref (l : List Nat) :
    ∀ reg : Nat,
      l.foldl (fun crc b => (List.range 8).foldl (fun c _ => crc_round c) (crc ^^^ b)) reg =
        crc16_ref_from l reg := by
  induction l with
  | nil => intro reg; rfl
  | cons b rest ih =>
    intro reg
    rw [List.foldl_cons, crc_inner_eq_ref]
    rw [show crc16_ref_from (b :: rest) reg = crc16_ref_from rest (crc16_ref_iter 8 (reg ^^^ b))
      from rfl]
    exact ih (crc16_ref_iter 8 (reg ^^^ b))

/-- C1: for every sequence of input bytes (each in 0..255),
`calculate_crc` equals the CRC-16 reference computation (register
initialized to 0xFFFF; per byte, XOR into the register's low byte, then
8 rounds of shift-right-and-conditionally-XOR-0x8408; no final XOR);
the checksum of the empty sequence is 0xFFFF, and the function is
deterministic. -/
theorem calculate_crc_matches_reference (data : List Nat) (hbytes : ∀ b ∈ data, b < 256) :
    calculate_crc data = checksum_reference data ∧
    calculate_crc [] = 0xFFFF ∧
    ∀ d1 d2 : List Nat, d1 = d2 → calculate_crc d1 = calculate_crc d2 := by
  refine ⟨?_, rfl, ?_⟩
  · exact crc_foldl_eq_ref data 0xFFFF
  · intro d1 d2 h; rw [h]

/-- C1 witness: the theorem instantiated at the concrete byte list
`[0x7F, 0x80, 0x01, 0x11]` (the prefix of a SYNC packet). -/
theorem calculate_crc_matches_reference_at_sync :
    calculate_crc [0x7F, 0x80, 0x01, 0x11] = checksum_reference [0x7F, 0x80, 0x01, 0x11] ∧
    calculate_crc [] = 0xFFFF ∧
    ∀ d1 d2 : List Nat, d1 = d2 → calculate_crc d1 = calculate_crc d2 :=
  calculate_crc_matches_reference [0x7F, 0x80, 0x01, 0x11] (by decide)

theorem and_255_lt (x : Nat) : x &&& 0xFF < 256 :=
  Nat.and_lt_two_pow x (show 0xFF < 2 ^ 8 by decide)

theorem crc_round_lt {c : Nat} (h : c < 65536) : crc_round c < 65536 := by
  unfold crc_round
  by_cases hb : c &&& 0x0001 ≠ 0
  · rw [if_pos hb]
    refine Nat.xor_lt_two_pow (n := 16) ?_ (by decide)
    calc c >>> 1 ≤ c := by rw [Nat.shiftRight_eq_div_pow, Nat.pow_one]; exact Nat.div_le_self c 2
    _ < 2 ^ 16 := h
  · rw [if_neg hb]
    calc c >>> 1 ≤ c := by rw [Nat.shiftRight_eq_div_pow, Nat.pow_one]; exact Nat.div_le_self c 2
    _ < 65536 := h

theorem crc_inner_lt (l : List Nat) : ∀ x : Nat, x < 65536 →
    l.foldl (fun c _ => crc_round c) x < 65536 := by
  induction l with
  | nil => intro x hx; exact hx
  | cons a rest ih =>
    intro x hx
    rw [List.foldl_cons]
    exact ih (crc_round x) (crc_round_lt hx)

theorem calculate_crc_foldl_lt (l : List Nat) : ∀ reg : Nat, reg < 65536 →
    (∀ b ∈ l, b < 65536) →
    l.foldl (fun crc b => (List.range 8).foldl (fun c _ => crc_round c) (crc ^^^ b)) reg <
      65536 := by
  induction l with
  | nil => intro reg hreg _; exact hreg
  | cons b rest ih =>
    intro reg hreg hl
    rw [List.foldl_cons]
    refine ih _ ?_ (fun x hx => hl x (List.mem_cons_of_mem b hx))
    refine crc_inner_lt (List.range 8) _ ?_
    exact Nat.xor_lt_two_pow (n := 16) hreg (hl b (List.mem_cons_self b rest))

/-- The CRC of a list of 16-bit values stays below 2^16: the register
starts at 0xFFFF and every round keeps it a 16-bit value. -/
theorem calculate_crc_lt (l : List Nat) (h : ∀ b ∈ l, b < 65536) :
    calculate_crc l < 65536 :=
  calculate_crc_foldl_lt l 0xFFFF (by decide) h

/-- C2: for every command byte, sequence byte, and data list of length
at most 254 whose entries are bytes, `create_ssp_packet` succeeds and
returns `[0x7F, sequence, len(data)+1, command] ++ data` followed by the
CRC of that prefix; the CRC is a 16-bit value and its two trailing bytes
are its little-endian encoding (`crc % 256`, `crc / 256`), so byte 2 of
the packet is the length byte `len(data)+1` and the final two bytes are
the little-endian checksum of all preceding bytes. -/
theorem create_ssp_packet_layout (command sequence : Nat) (data : List Nat)
    (hc : command < 256) (hs : sequence < 256) (hlen : data.length ≤ 254)
    (hdata : ∀ b ∈ data, b < 256) :
    create_ssp_packet command sequence data =
      some (([0x7F, sequence, data.length + 1, command] ++ data) ++
        [calculate_crc ([0x7F, sequence, data.length + 1, command] ++ data) &&& 0xFF,
          (calculate_crc ([0x7F, sequence, data.length + 1, command] ++ data) >>> 8) &&&
            0xFF]) ∧
    calculate_crc ([0x7F, sequence, data.length + 1, command] ++ data) < 65536 ∧
    calculate_crc ([0x7F, sequence, data.length + 1, command] ++ data) &&& 0xFF =
      calculate_crc ([0x7F, sequence, data.length + 1, command] ++ data) % 256 ∧
    (calculate_crc ([0x7F, sequence, data.length + 1, command] ++ data) >>> 8) &&& 0xFF =
      calculate_crc ([0x7F, sequence, data.length + 1, command] ++ data) / 256 := by
  have hcrc : calculate_crc ([0x7F, sequence, data.length + 1, command] ++ data) < 65536 := by
    refine calculate_crc_lt _ ?_
    intro b hb
    rcases List.mem_append.mp hb with hb | hb
    · rcases hb with _ | ⟨_, _ | ⟨_, _ | ⟨_, _ | ⟨_, hb⟩⟩⟩⟩
      · omega
      · omega
      · omega
      · omega
      · cases hb
    · exact Nat.lt_of_lt_of_le (hdata b hb) (by omega)
  refine ⟨?_, hcrc, ?_, ?_⟩
  · simp only [create_ssp_packet]
    rw [if_pos]
    rw [List.all_eq_true]
    intro x hx
    rw [decide_eq_true_eq]
    rcases List.mem_append.mp hx with hx | hx
    · rcases List.mem_append.mp hx with hx | hx
      · rcases hx with _ | ⟨_, _ | ⟨_, _ | ⟨_, _ | ⟨_, hx⟩⟩⟩⟩
        · omega
        · omega
        · omega
        · omega
        · cases hx
      · exact hdata x hx
    · rcases hx with _ | ⟨_, _ | ⟨_, hx⟩⟩
      · exact and_255_lt _
      · exact and_255_lt _
      · cases hx
  · have := Nat.and_pow_two_sub_one_eq_mod
      (calculate_crc ([0x7F, sequence, data.length + 1, command] ++ data)) 8
    simpa using this
  · rw [Nat.shiftRight_eq_div_pow]
    have hdiv : calculate_crc ([0x7F, sequence, data.length + 1, command] ++ data) / 2 ^ 8 <
        256 := Nat.div_lt_of_lt_mul (by omega)
    have := Nat.and_pow_two_sub_one_eq_mod
      (calculate_crc ([0x7F, sequence, data.length + 1, command] ++ data) / 2 ^ 8) 8
    simp only [show (2 : Nat) ^ 8 - 1 = 0xFF by decide] at this
    rw [this, Nat.mod_eq_of_lt hdiv]
    norm_num

set_option maxRecDepth 100000 in
/-- C2 witness: the layout theorem instantiated at a SYNC packet with
sequence byte 0x80 and no data. -/
theorem create_ssp_packet_layout_at_sync :
    create_ssp_packet 0x11 0x80 [] =
      some [0x7F, 0x80, 0x01, 0x11,
        calculate_crc [0x7F, 0x80, 0x01, 0x11] &&& 0xFF,
        (calculate_crc [0x7F, 0x80, 0x01, 0x11] >>> 8) &&& 0xFF] ∧
    calculate_crc [0x7F, 0x80, 0x01, 0x11] < 65536 ∧
    calculate_crc [0x7F, 0x80, 0x01, 0x11] &&& 0xFF =
      calculate_crc [0x7F, 0x80, 0x01, 0x11] % 256 ∧
    (calculate_crc [0x7F, 0x80, 0x01, 0x11] >>> 8) &&& 0xFF =
      calculate_crc [0x7F, 0x80, 0x01, 0x11] / 256 :=
  create_ssp_packet_layout 0x11 0x80 [] (by decide) (by decide) (by decide)
    (fun b hb => absurd hb (List.not_mem_nil b))

theorem create_ssp_packet_none_of_long (command sequence : Nat) (data : List Nat)
    (hlen : 254 < data.length) :
    create_ssp_packet command sequence data = none := by
  have hmem : data.length + 1 ∈
      ([0x7F, sequence, data.length + 1, command] ++ data) ++
        [calculate_crc ([0x7F, sequence, data.length + 1, command] ++ data) &&& 0xFF,
          (calculate_crc ([0x7F, sequence, data.length + 1, command] ++ data) >>> 8) &&&
            0xFF] := by
    simp
  have hne : ¬ ((([0x7F, sequence, data.length + 1, command] ++ data) ++
      [calculate_crc ([0x7F, sequence, data.length + 1, command] ++ data) &&& 0xFF,
        (calculate_crc ([0x7F, sequence, data.length + 1, command] ++ data) >>> 8) &&&
          0xFF]).all (fun b => decide (b < 256)) = true) := by
    intro h
    rw [List.all_eq_true] at h
    have hx := h _ hmem
    rw [decide_eq_true_eq] at hx
    omega
  simp only [create_ssp_packet]
  exact if_neg hne

/-- C9 counterexample: at 255 data bytes the length value is 256, the
`bytes()` conversion fails, and the builder does not complete with a
wrapped length byte: it returns no packet at all. -/
theorem create_ssp_packet_oversize_cex :
    create_ssp_packet CMD_POLL 0x80 (List.replicate 255 0) = none :=
  create_ssp_packet_none_of_long CMD_POLL 0x80 (List.replicate 255 0)
    (by rw [List.length_replicate]; omega)

/-- C9 amended: for every data list of more than 254 bytes,
`create_ssp_packet` fails (the `bytes()` conversion rejects the length
value, which no longer fits one byte) instead of completing with a
silently wrapped length byte; the builder itself performs no explicit
length validation. -/
theorem create_ssp_packet_oversize_fails (command sequence : Nat) (data : List Nat)
    (hlen : 254 < data.length) :
    create_ssp_packet command sequence data = none :=
  create_ssp_packet_none_of_long command sequence data hlen

/-- C9 amended witness: the failure theorem instantiated at a 300-byte
payload. -/
theorem create_ssp_packet_oversize_fails_at_300 :
    254 < (List.replicate 300 7).length ∧
    create_ssp_packet 0 0 (List.replicate 300 7) = none :=
  ⟨by rw [List.length_replicate]; omega,
    create_ssp_packet_oversize_fails 0 0 (List.replicate 300 7)
      (by rw [List.length_replicate]; omega)⟩

/-- The fixed handshake-line configuration list of `test_serial_port`
(DTR, RTS), in source order. -/
def configurations : List (Bool × Bool) :=
  [(false, false), (true, false), (false, true), (true, true)]

/-- The default candidate baud-rate list of `test_serial_port`. -/
def default_baud_rates : List Nat := [9600, 19200, 38400, 115200]

/-- The dictionary returned by `test_serial_port` on success:
`{'port': ..., 'baudrate': ..., 'dtr': ..., 'rts': ...}`. -/
structure Settings where
  port : String
  baudrate : Nat
  dtr : Bool
  rts : Bool
deriving DecidableEq

/-- A probe-packet write issued during discovery, identified by the
link candidate it was sent under and the command opcode of the packet
(the packet itself is `create_ssp_packet cmd 0x80 []`). -/
structure WriteEvent where
  baud : Nat
  dtr : Bool
  rts : Bool
  cmd : Nat
deriving DecidableEq

/-- The outcome the transport delivers for one probe: either a raised
transport fault (an exception during the write/read), or the bytes the
64-byte timed read returned (possibly none on timeout). -/
inductive ReadResult where
  | fault : ReadResult
  | bytes : List Nat → ReadResult

/-- An abstract serial transport for discovery: whether opening the
port at a given baud rate raises, and the outcome of the probe issued
under a given (baud, DTR, RTS) candidate with a given command. -/
structure Transport where
  openFault : Nat → Bool
  read : Nat → Bool → Bool → Nat → ReadResult

/-- The inner handshake-configuration loop of `test_serial_port`: for
each (DTR, RTS) pair, set the lines, flush, write a SYNC probe and read;
on any bytes return the settings; otherwise flush, write a RESET probe
and read; on any bytes return the settings; otherwise continue.  A
transport fault propagates out of the loop (to the per-baud handler).
Returns the probe writes issued and the loop outcome. -/
def runConfigs (t : Transport) (port : String) (baud : Nat) :
    List (Bool × Bool) → List WriteEvent × Except Unit (Option Settings)
  | [] => ([], Except.ok none)
  | (dtr, rts) :: rest =>
    match t.read baud dtr rts CMD_SYNC with
    | ReadResult.fault => ([⟨baud, dtr, rts, CMD_SYNC⟩], Except.error ())
    | ReadResult.bytes bs =>
      if bs ≠ [] then
        ([⟨baud, dtr, rts, CMD_SYNC⟩], Except.ok (some ⟨port, baud, dtr, rts⟩))
      else
        match t.read baud dtr rts CMD_RESET with
        | ReadResult.fault =>
          ([⟨baud, dtr, rts, CMD_SYNC⟩, ⟨baud, dtr, rts, CMD_RESET⟩], Except.error ())
        | ReadResult.bytes bs2 =>
          if bs2 ≠ [] then
            ([⟨baud, dtr, rts, CMD_SYNC⟩, ⟨baud, dtr, rts, CMD_RESET⟩],
              Except.ok (some ⟨port, baud, dtr, rts⟩))
          else
            (⟨baud, dtr, rts, CMD_SYNC⟩ :: ⟨baud, dtr, rts, CMD_RESET⟩ ::
                (runConfigs t port baud rest).1,
              (runConfigs t port baud rest).2)

/-- The outer baud-rate loop of `test_serial_port`.  Each iteration
opens the port at the candidate baud rate and runs the handshake loop;
the `try`/`except` wraps the whole per-baud block, so a fault while
opening or while probing any candidate at that baud is caught there and
the loop moves on to the next baud rate.  When the list is exhausted the
function returns `None`. -/
def runBauds (t : Transport) (port : String) : List Nat → List WriteEvent × Option Settings
  | [] => ([], none)
  | baud :: rest =>
    if t.openFault baud then runBauds t port rest
    else
      match runConfigs t port baud configurations with
      | (log, Except.ok (some s)) => (log, some s)
      | (log, Except.ok none) =>
        (log ++ (runBauds t port rest).1, (runBauds t port rest).2)
      | (log, Except.error _) =>
        (log ++ (runBauds t port rest).1, (runBauds t port rest).2)

/-- `test_serial_port(port_name, baud_rates)`: the discovery search over
baud rates and handshake configurations.  The preliminary permission
check and remediation attempt only log (every exception there is caught)
and do not affect the search result, so they are not modelled. -/
def test_serial_port (t : Transport) (port_name : String) (baud_rates : List Nat) :
    List WriteEvent × Option Settings :=
  runBauds t port_name baud_rates

/-- The full probe-write log over a baud list: for each baud rate in
order, for each handshake configuration in order, one SYNC write then
one RESET write. -/
def full_probe_log (bauds : List Nat) : List WriteEvent :=
  bauds.flatMap fun b => configurations.flatMap fun c =>
    [⟨b, c.1, c.2, CMD_SYNC⟩, ⟨b, c.1, c.2, CMD_RESET⟩]

/-- A transport that never faults and never returns any bytes. -/
def silent_transport : Transport :=
  ⟨fun _ => false, fun _ _ _ _ => ReadResult.bytes []⟩

/-- A transport that never faults and responds (with one byte) exactly
at baud 38400, DTR on, RTS off, to any probe. -/
def responsive_38400_transport : Transport :=
  ⟨fun _ => false, fun baud dtr rts _ =>
    if baud = 38400 ∧ dtr = true ∧ rts = false then ReadResult.bytes [0x7F]
    else ReadResult.bytes []⟩

/-- A transport that raises a fault exactly on the SYNC probe of the
very first candidate (baud 9600, DTR off, RTS off) and otherwise never
returns any bytes. -/
def faulting_9600_transport : Transport :=
  ⟨fun _ => false, fun baud dtr rts cmd =>
    if baud = 9600 ∧ dtr = false ∧ rts = false ∧ cmd = CMD_SYNC then ReadResult.fault
    else ReadResult.bytes []⟩

/-- C3: against a transport that never returns bytes and never faults,
discovery over the default 4 baud rates and 4 handshake configurations
issues exactly 32 probe writes — one SYNC followed by one RESET for each
of the 16 (baud, DTR, RTS) candidates, in order — and returns the
no-configuration-found result (`None`) without raising. -/
theorem discovery_silent_exhausts_32_probes :
    test_serial_port silent_transport "/dev/ttyUSB0" default_baud_rates =
      (full_probe_log default_baud_rates, none) ∧
    (full_probe_log default_baud_rates).length = 32 := by
  constructor
  · decide
  · decide

/-- C4: discovery visits candidates in the fixed order (baud rates
outer, handshake configurations inner, SYNC before RESET) and returns
at the first read that yields bytes, with no further probe writes: on a
transport that responds only at baud 38400, DTR on, RTS off, the probe
log is all earlier candidates in order followed by the winning SYNC
probe as its last write, and the result is exactly that triple. -/
theorem discovery_early_exit_at_38400 :
    test_serial_port responsive_38400_transport "/dev/ttyUSB0" default_baud_rates =
      (full_probe_log [9600, 19200] ++
        [⟨38400, false, false, CMD_SYNC⟩, ⟨38400, false, false, CMD_RESET⟩,
          ⟨38400, true, false, CMD_SYNC⟩],
        some ⟨"/dev/ttyUSB0", 38400, true, false⟩) := by
  decide

/-- C5 counterexample: with a transport that faults only on the SYNC
probe of the first candidate (9600, DTR off, RTS off), discovery never
probes the next candidate configuration (9600, DTR on, RTS off) — its
SYNC write is absent from the log — refuting the claim that after a
per-candidate fault the search continues with the next candidate
configuration without skipping any. -/
theorem discovery_fault_skips_candidates_cex :
    (test_serial_port faulting_9600_transport "/dev/ttyUSB0" default_baud_rates).2 = none ∧
    WriteEvent.mk 9600 true false CMD_SYNC ∉
      (test_serial_port faulting_9600_transport "/dev/ttyUSB0" default_baud_rates).1 := by
  constructor
  · decide
  · decide

/-- C5 amended: a transport fault while probing one candidate is caught
and treated as no response for the entire current baud rate: the
remaining handshake configurations at that baud are skipped and the
search continues with the next baud rate (all of whose candidates are
probed in order); discovery as a whole is not aborted and still returns
the no-configuration-found result when nothing responds. -/
theorem discovery_fault_continues_next_baud :
    test_serial_port faulting_9600_transport "/dev/ttyUSB0" default_baud_rates =
      ([⟨9600, false, false, CMD_SYNC⟩] ++ full_probe_log [19200, 38400, 115200], none) := by
  decide

theorem runConfigs_ok_some (t : Transport) (port : String) (baud : Nat) :
    ∀ (cfgs : List (Bool × Bool)) (s : Settings),
      (runConfigs t port baud cfgs).2 = Except.ok (some s) →
      s.port = port ∧ s.baudrate = baud ∧ (s.dtr, s.rts) ∈ cfgs := by
  intro cfgs
  induction cfgs with
  | nil => intro s h; simp [runConfigs] at h
  | cons c rest ih =>
    obtain ⟨dtr, rts⟩ := c
    intro s h
    simp only [runConfigs] at h
    cases hr : t.read baud dtr rts CMD_SYNC with
    | fault => rw [hr] at h; simp at h
    | bytes bs =>
      rw [hr] at h
      by_cases hb : bs = []
      · subst hb
        simp only [ne_eq, not_true_eq_false, if_false] at h
        cases hr2 : t.read baud dtr rts CMD_RESET with
        | fault => rw [hr2] at h; simp at h
        | bytes bs2 =>
          rw [hr2] at h
          by_cases hb2 : bs2 = []
          · subst hb2
            simp only [ne_eq, not_true_eq_false, if_false] at h
            obtain ⟨h1, h2, h3⟩ := ih s h
            exact ⟨h1, h2, List.mem_cons_of_mem _ h3⟩
          · simp only [ne_eq, hb2, not_false_eq_true, if_true, Except.ok.injEq,
              Option.some.injEq] at h
            subst h
            exact ⟨rfl, rfl, List.mem_cons_self _ _⟩
      · simp only [ne_eq, hb, not_false_eq_true, if_true, Except.ok.injEq,
          Option.some.injEq] at h
        subst h
        exact ⟨rfl, rfl, List.mem_cons_self _ _⟩

/-- C10: whenever discovery returns a configuration, its port field
equals the input port name unchanged, its baud rate is an element of the
candidate baud-rate list the search was given, and its (DTR, RTS) pair
is one of the four fixed handshake configurations. -/
theorem discovery_result_invariant (t : Transport) (port : String) (bauds : List Nat) :
    ∀ s : Settings, (test_serial_port t port bauds).2 = some s →
      s.port = port ∧ s.baudrate ∈ bauds ∧ (s.dtr, s.rts) ∈ configurations := by
  induction bauds with
  | nil => intro s h; simp [test_serial_port, runBauds] at h
  | cons baud rest ih =>
    intro s h
    simp only [test_serial_port, runBauds] at h
    by_cases ho : t.openFault baud = true
    · rw [if_pos ho] at h
      obtain ⟨h1, h2, h3⟩ := ih s h
      exact ⟨h1, List.mem_cons_of_mem _ h2, h3⟩
    · rw [if_neg ho] at h
      cases hc : runConfigs t port baud configurations with
      | mk log r =>
        rw [hc] at h
        cases r with
        | ok o =>
          cases o with
          | some s0 =>
            simp only [Option.some.injEq] at h
            subst h
            obtain ⟨h1, h2, h3⟩ := runConfigs_ok_some t port baud configurations s0
              (by rw [hc])
            exact ⟨h1, by rw [h2]; exact List.mem_cons_self _ _, h3⟩
          | none =>
            simp only at h
            obtain ⟨h1, h2, h3⟩ := ih s h
            exact ⟨h1, List.mem_cons_of_mem _ h2, h3⟩
        | error e =>
          simp only at h
          obtain ⟨h1, h2, h3⟩ := ih s h
          exact ⟨h1, List.mem_cons_of_mem _ h2, h3⟩

/-- C10 witness: the invariant applied to the configuration discovery
finds on the transport that responds at baud 38400, DTR on, RTS off. -/
theorem discovery_result_invariant_at_38400 :
    (Settings.mk "/dev/ttyUSB0" 38400 true false).port = "/dev/ttyUSB0" ∧
    (Settings.mk "/dev/ttyUSB0" 38400 true false).baudrate ∈ default_baud_rates ∧
    ((Settings.mk "/dev/ttyUSB0" 38400 true false).dtr,
      (Settings.mk "/dev/ttyUSB0" 38400 true false).rts) ∈ configurations :=
  discovery_result_invariant responsive_38400_transport "/dev/ttyUSB0" default_baud_rates
    ⟨"/dev/ttyUSB0", 38400, true, false⟩ (by decide)

/-- An abstract serial transport for the command phase of `main`: the
outcome of writing a packet with a given command opcode and sequence
byte and then performing the 64-byte timed read. -/
structure CmdTransport where
  read : Nat → Nat → ReadResult

/-- The initial value of the sequence counter in `main`
(`sequence = 0x80`). -/
def sequence_init : Nat := 0x80

/-- The sequence-counter advance performed after each command in `main`
(`sequence = 0x80 | ((sequence + 1) & 0x7F)`). -/
def advance_sequence (s : Nat) : Nat := 0x80 ||| ((s + 1) &&& 0x7F)

/-- The sequence-counter value after `n` advances from the initial
value 0x80. -/
def sequence_after : Nat → Nat
  | 0 => sequence_init
  | n + 1 => advance_sequence (sequence_after n)

/-- The fixed command sequence of `main`:
SYNC, SETUP_REQUEST, ENABLE, POLL. -/
def commands : List Nat := [CMD_SYNC, CMD_SETUP_REQUEST, CMD_ENABLE, CMD_POLL]

/-- The `for i in range(3)` sub-loop of extra POLL packets in `main`:
each iteration sends a POLL packet with sequence byte
`0x80 | ((s + i + 1) & 0x7F)` (where `s` is the counter value used for
the original POLL), sleeps, and reads; a missing response only logs and
the loop continues, while a transport fault propagates.  Returns the
(command, sequence) pairs written and whether a fault occurred. -/
def run_extra_polls (t : CmdTransport) (s : Nat) :
    List Nat → List (Nat × Nat) × Except Unit Unit
  | [] => ([], Except.ok ())
  | i :: rest =>
    match t.read CMD_POLL (0x80 ||| ((s + i + 1) &&& 0x7F)) with
    | ReadResult.fault => ([(CMD_POLL, 0x80 ||| ((s + i + 1) &&& 0x7F))], Except.error ())
    | ReadResult.bytes _ =>
      ((CMD_POLL, 0x80 ||| ((s + i + 1) &&& 0x7F)) :: (run_extra_polls t s rest).1,
        (run_extra_polls t s rest).2)

/-- The command loop of `main`: for each command, send a packet built
with the current sequence counter, sleep, and read up to 64 bytes.  When
a non-empty response arrives and the command is POLL, the three extra
POLL packets are sent.  The counter is advanced after every command,
whatever the response.  A transport fault aborts the loop (it is caught
by the surrounding handler in `main`).  Returns the (command, sequence)
pairs written and whether a fault occurred. -/
def run_commands (t : CmdTransport) : List Nat → Nat → List (Nat × Nat) × Except Unit Unit
  | [], _ => ([], Except.ok ())
  | cmd :: rest, s =>
    match t.read cmd s with
    | ReadResult.fault => ([(cmd, s)], Except.error ())
    | ReadResult.bytes bs =>
      if bs ≠ [] then
        if cmd = CMD_POLL then
          match run_extra_polls t s (List.range 3) with
          | (w, Except.error e) => ((cmd, s) :: w, Except.error e)
          | (w, Except.ok _) =>
            ((cmd, s) :: (w ++ (run_commands t rest (advance_sequence s)).1),
              (run_commands t rest (advance_sequence s)).2)
        else
          ((cmd, s) :: (run_commands t rest (advance_sequence s)).1,
            (run_commands t rest (advance_sequence s)).2)
      else
        ((cmd, s) :: (run_commands t rest (advance_sequence s)).1,
          (run_commands t rest (advance_sequence s)).2)

/-- A command-phase transport that never faults and answers the read
after command `c` sent with sequence byte `s` with the bytes `f c s`. -/
def responder (f : Nat → Nat → List Nat) : CmdTransport :=
  ⟨fun c s => ReadResult.bytes (f c s)⟩

theorem advance_sequence_or : ∀ m : Nat, m < 128 →
    advance_sequence (0x80 ||| m) = 0x80 ||| ((m + 1) % 128) := by decide

theorem or_128_and : ∀ m : Nat, m < 128 → (0x80 ||| m) &&& 0x80 = 0x80 := by decide

/-- C6: the sequence counter starts at 0x80; after `n` advances by
`advance_sequence` (applied after every command) its value is
`0x80 | (n % 128)`, and the high bit 0x80 is set in every value the
counter ever takes. -/
theorem sequence_counter_formula (n : Nat) :
    sequence_after 0 = 0x80 ∧
    sequence_after n = 0x80 ||| (n % 128) ∧
    sequence_after n &&& 0x80 = 0x80 := by
  have key : ∀ k : Nat, sequence_after k = 0x80 ||| (k % 128) := by
    intro k
    induction k with
    | zero => decide
    | succ k ih =>
      have hm : k % 128 < 128 := Nat.mod_lt _ (by omega)
      calc sequence_after (k + 1) = advance_sequence (sequence_after k) := rfl
        _ = advance_sequence (0x80 ||| (k % 128)) := by rw [ih]
        _ = 0x80 ||| ((k % 128 + 1) % 128) := advance_sequence_or (k % 128) hm
        _ = 0x80 ||| ((k + 1) % 128) := by rw [show (k % 128 + 1) % 128 = (k + 1) % 128
              from by omega]
  refine ⟨rfl, key n, ?_⟩
  rw [key n]
  exact or_128_and (n % 128) (Nat.mod_lt _ (by omega))

theorem run_commands_cons_resp (t : CmdTransport) (cmd : Nat) (rest : List Nat) (s : Nat)
    (bs : List Nat) (hr : t.read cmd s = ReadResult.bytes bs) (hcmd : cmd ≠ CMD_POLL) :
    run_commands t (cmd :: rest) s =
      ((cmd, s) :: (run_commands t rest (advance_sequence s)).1,
        (run_commands t rest (advance_sequence s)).2) := by
  simp only [run_commands, hr]
  by_cases hb : bs = []
  · simp [hb]
  · simp [hb, hcmd]

theorem run_commands_fst_nonpoll (t : CmdTransport) (cmd : Nat) (rest : List Nat) (s : Nat)
    (bs : List Nat) (hr : t.read cmd s = ReadResult.bytes bs) (hcmd : cmd ≠ CMD_POLL) :
    (run_commands t (cmd :: rest) s).1 =
      (cmd, s) :: (run_commands t rest (advance_sequence s)).1 := by
  rw [run_commands_cons_resp t cmd rest s bs hr hcmd]

theorem run_commands_fst_empty_resp (t : CmdTransport) (cmd : Nat) (rest : List Nat)
    (s : Nat) (hr : t.read cmd s = ReadResult.bytes []) :
    (run_commands t (cmd :: rest) s).1 =
      (cmd, s) :: (run_commands t rest (advance_sequence s)).1 := by
  simp [run_commands, hr]

theorem run_extra_polls_responder (f : Nat → Nat → List Nat) (s : Nat) :
    ∀ l : List Nat, run_extra_polls (responder f) s l =
      (l.map fun i => (CMD_POLL, 0x80 ||| ((s + i + 1) &&& 0x7F)), Except.ok ()) := by
  intro l
  induction l with
  | nil => rfl
  | cons i rest ih =>
    show ((CMD_POLL, 0x80 ||| ((s + i + 1) &&& 0x7F)) ::
        (run_extra_polls (responder f) s rest).1,
      (run_extra_polls (responder f) s rest).2) = _
    rw [ih]
    rfl

theorem run_commands_fst_poll_resp (f : Nat → Nat → List Nat) (rest : List Nat) (s : Nat)
    (hne : ¬ f CMD_POLL s = []) :
    (run_commands (responder f) (CMD_POLL :: rest) s).1 =
      (CMD_POLL, s) ::
        (((List.range 3).map fun i => (CMD_POLL, 0x80 ||| ((s + i + 1) &&& 0x7F))) ++
          (run_commands (responder f) rest (advance_sequence s)).1) := by
  have hr : (responder f).read CMD_POLL s = ReadResult.bytes (f CMD_POLL s) := rfl
  simp only [run_commands, hr, ne_eq, hne, not_false_eq_true, if_true, eq_self_iff_true,
    run_extra_polls_responder]

/-- C7: in `main`'s command loop over a fault-free transport whose
responses are given by `f`, the original four commands are written with
sequence bytes 0x80, 0x81, 0x82, 0x83; exactly three extra POLL packets
are written, with sequence bytes 0x84, 0x85, 0x86 (that is,
`0x80 | ((0x83 + i) & 0x7F)` for i = 1, 2, 3), if and only if the read
after the original POLL returned non-empty bytes; the extra POLLs are
all written whatever the responses to them are (a missed response does
not stop the sub-sequence). -/
theorem poll_triggers_three_extra_polls (f : Nat → Nat → List Nat) :
    (run_commands (responder f) commands sequence_init).1 =
      [(CMD_SYNC, 0x80), (CMD_SETUP_REQUEST, 0x81), (CMD_ENABLE, 0x82), (CMD_POLL, 0x83)] ++
        (if f CMD_POLL 0x83 = [] then []
          else [(CMD_POLL, 0x84), (CMD_POLL, 0x85), (CMD_POLL, 0x86)]) := by
  have hstep1 : advance_sequence sequence_init = 0x81 := by decide
  have hstep2 : advance_sequence 0x81 = 0x82 := by decide
  have hstep3 : advance_sequence 0x82 = 0x83 := by decide
  simp only [commands]
  rw [run_commands_fst_nonpoll (responder f) CMD_SYNC _ sequence_init
    (f CMD_SYNC sequence_init) rfl (by decide), hstep1]
  rw [run_commands_fst_nonpoll (responder f) CMD_SETUP_REQUEST _ 0x81
    (f CMD_SETUP_REQUEST 0x81) rfl (by decide), hstep2]
  rw [run_commands_fst_nonpoll (responder f) CMD_ENABLE _ 0x82
    (f CMD_ENABLE 0x82) rfl (by decide), hstep3]
  by_cases hp : f CMD_POLL 0x83 = []
  · rw [run_commands_fst_empty_resp (responder f) CMD_POLL [] 0x83
      (show ReadResult.bytes (f CMD_POLL 0x83) = ReadResult.bytes [] from by rw [hp])]
    simp [hp, sequence_init, run_commands]
  · rw [run_commands_fst_poll_resp f [] 0x83 hp]
    have hmap : ((List.range 3).map fun i => ((CMD_POLL : Nat),
        0x80 ||| ((0x83 + i + 1) &&& 0x7F))) =
        [(CMD_POLL, 0x84), (CMD_POLL, 0x85), (CMD_POLL, 0x86)] := by decide
    rw [hmap]
    simp [hp, sequence_init, run_commands]

/-- The environment `main` runs against: the port found by device
enumeration (`identify_device`), the discovery transport, whether
reopening the port at the discovered settings faults, and the
command-phase transport at those settings. -/
structure MainEnv where
  device_port : Option String
  discovery : Transport
  openFault : Settings → Bool
  cmd_transport : Settings → CmdTransport

/-- `main()`: return 1 when no device port is found; otherwise run
discovery over the default baud rates and return 1 when it finds no
working settings; otherwise reopen the port and run the command
sequence, returning 1 when a transport fault is raised (caught by the
surrounding handler) and 0 on completion.  (`create_udev_rule` only
writes a template file and catches its own exceptions, so it does not
affect the exit status and is not modelled.) -/
def main (e : MainEnv) : Nat :=
  match e.device_port with
  | none => 1
  | some port =>
    match (test_serial_port e.discovery port default_baud_rates).2 with
    | none => 1
    | some st =>
      if e.openFault st then 1
      else
        match (run_commands (e.cmd_transport st) commands sequence_init).2 with
        | Except.error _ => 1
        | Except.ok _ => 0

/-- Success of a run: a device port was found, discovery returned
working settings, reopening did not fault, and the command sequence
completed without a transport fault. -/
def main_succeeds (e : MainEnv) : Prop :=
  ∃ port st, e.device_port = some port ∧
    (test_serial_port e.discovery port default_baud_rates).2 = some st ∧
    e.openFault st = false ∧
    (run_commands (e.cmd_transport st) commands sequence_init).2 = Except.ok ()

/-- An environment in which no matching device port is enumerated. -/
def env_no_device : MainEnv :=
  ⟨none, silent_transport, fun _ => false, fun _ => responder fun _ _ => []⟩

/-- An environment in which the device is found but no candidate link
configuration elicits a response. -/
def env_no_config : MainEnv :=
  ⟨some "/dev/ttyUSB0", silent_transport, fun _ => false, fun _ => responder fun _ _ => []⟩

/-- An environment in which the device is found and discovery succeeds,
but the first command of the sequence hits a transport fault. -/
def env_fatal_fault : MainEnv :=
  ⟨some "/dev/ttyUSB0", responsive_38400_transport, fun _ => false,
    fun _ => ⟨fun _ _ => ReadResult.fault⟩⟩

/-- C8 counterexample: the three failure modes — no device found, no
working configuration found, fatal fault during sequencing — all exit
with the same status 1, so the three failure statuses are not distinct
from each other. -/
theorem main_failure_statuses_all_one :
    main env_no_device = 1 ∧ main env_no_config = 1 ∧ main env_fatal_fault = 1 := by
  refine ⟨rfl, ?_, ?_⟩ <;> decide

/-- C8 amended: `main` returns 0 if and only if a device port was
found, discovery returned working settings, and the command sequence
completed without a transport fault; every failure mode returns the
same non-zero status 1 (non-zero, but not distinct between the three
failure modes). -/
theorem main_exit_status (e : MainEnv) :
    (main e = 0 ∨ main e = 1) ∧ (main e = 0 ↔ main_succeeds e) := by
  cases hd : e.device_port with
  | none =>
    refine ⟨Or.inr (by simp [main, hd]), ?_, ?_⟩
    · intro h
      simp [main, hd] at h
    · rintro ⟨port, st, hp, _⟩
      rw [hd] at hp
      exact Option.noConfusion hp
  | some port =>
    cases hs : (test_serial_port e.discovery port default_baud_rates).2 with
    | none =>
      refine ⟨Or.inr (by simp [main, hd, hs]), ?_, ?_⟩
      · intro h
        simp [main, hd, hs] at h
      · rintro ⟨port2, st, hp, hst, _⟩
        rw [hd] at hp
        cases hp
        rw [hs] at hst
        exact Option.noConfusion hst
    | some st =>
      cases ho : e.openFault st with
      | true =>
        refine ⟨Or.inr (by simp [main, hd, hs, ho]), ?_, ?_⟩
        · intro h
          simp [main, hd, hs, ho] at h
        · rintro ⟨port2, st2, hp, hst, hof, _⟩
          rw [hd] at hp
          cases hp
          rw [hs] at hst
          cases hst
          rw [ho] at hof
          exact Bool.noConfusion hof
      | false =>
        cases hrc : (run_commands (e.cmd_transport st) commands sequence_init).2 with
        | error err =>
          refine ⟨Or.inr (by simp [main, hd, hs, ho, hrc]), ?_, ?_⟩
          · intro h
            simp [main, hd, hs, ho, hrc] at h
          · rintro ⟨port2, st2, hp, hst, hof, hok⟩
            rw [hd] at hp
            cases hp
            rw [hs] at hst
            cases hst
            rw [hrc] at hok
            exact Except.noConfusion hok
        | ok u =>
          cases u
          refine ⟨Or.inl (by simp [main, hd, hs, ho, hrc]), ?_, ?_⟩
          · intro h
            exact ⟨port, st, hd, hs, ho, hrc⟩
          · intro h
            simp [main, hd, hs, ho, hrc]

end SmartHoper
